import Mathlib

/-!
Verification of the serial loopback tester
(`src/python_scripts/serial_test_V2.py` and
`src/python_scripts/serial_test_V3_with_log_without_reconfigure.py`).

Strings are embedded as lists of Unicode code points (`List Nat`) and byte
sequences as lists of byte values (`List Nat`); machine integers of the
Python sources are unbounded, so `Nat` is a faithful carrier.  Fallible
operations (Python exceptions) are embedded as `Option`.
-/

/-- Code points of a Lean string literal, used to transliterate the Python
string constants of the scripts. -/
def strCodes (s : String) : List Nat :=
  s.data.map Char.toNat

/-- ASCII whitespace predicate, as used by CPython's `bytes.fromhex`
(`Py_ISSPACE`): space, tab, LF, VT, FF, CR. -/
def isWs (c : Nat) : Bool :=
  c = 32 || c = 9 || c = 10 || c = 11 || c = 12 || c = 13

/-- Hexadecimal digit predicate over code points: `0`-`9`, `a`-`f`, `A`-`F`. -/
def isHexDigit (c : Nat) : Bool :=
  (48 ≤ c && c ≤ 57) || (97 ≤ c && c ≤ 102) || (65 ≤ c && c ≤ 70)

/-- Numeric value of a hexadecimal digit code point. -/
def hexVal (c : Nat) : Nat :=
  if 48 ≤ c ∧ c ≤ 57 then c - 48
  else if 97 ≤ c ∧ c ≤ 102 then c - 87
  else if 65 ≤ c ∧ c ≤ 70 then c - 55
  else 0

/-- `hex_to_bytes` of both scripts, i.e. Python `bytes.fromhex`: skip ASCII
whitespace between bytes, then take two adjacent hex digits per byte; any
other shape (odd trailing digit, non-hex character, whitespace splitting a
byte pair) raises `ValueError`, embedded as `none`. -/
def fromhex : List Nat → Option (List Nat)
  | [] => some []
  | [c] => if isWs c then some [] else none
  | c :: d :: rest =>
    if isWs c then fromhex (d :: rest)
    else if isHexDigit c && isHexDigit d then
      (fromhex rest).map (fun bs => (hexVal c * 16 + hexVal d) :: bs)
    else none

/-- Uppercase hexadecimal digit for a value below 16, as produced by
Python's `bytes.hex()` followed by `str.upper()`. -/
def hexDigitUpper (v : Nat) : Nat :=
  if v < 10 then 48 + v else 55 + v

/-- `response.hex().upper()` of the scripts: each byte rendered as two
uppercase hexadecimal digit code points. -/
def bytesHexUpper (bs : List Nat) : List Nat :=
  bs.foldr (fun b acc => hexDigitUpper (b / 16) :: hexDigitUpper (b % 16) :: acc) []

/-- ASCII uppercasing of a code point, as Python `str.upper` acts on the
hexadecimal alphabet. -/
def upperChar (c : Nat) : Nat :=
  if 97 ≤ c ∧ c ≤ 122 then c - 32 else c

/-- Outcome of one loopback trial, per the classification in both scripts. -/
inductive Outcome where
  | Match
  | NoResponse
  | Mismatch
deriving DecidableEq

/-- The statistics dictionary of both scripts
(`total_sent`, `total_errors`, `err_no_resp`, `err_mismatch`). -/
structure Stats where
  total_sent : Nat
  total_errors : Nat
  err_no_resp : Nat
  err_mismatch : Nat
deriving DecidableEq

/-- The zeroed statistics dictionary both scripts start from. -/
def zeroStats : Stats :=
  ⟨0, 0, 0, 0⟩

/-- Classification of a trial, mirroring the `if not response / elif
response != target_payload / else` chain of both scripts. -/
def classify (tx rx : List Nat) : Outcome :=
  if rx = [] then Outcome.NoResponse
  else if rx ≠ tx then Outcome.Mismatch
  else Outcome.Match

/-- The per-trial statistics update of both scripts: `total_sent` is
incremented every trial; a non-Match outcome additionally increments
`total_errors` and the matching error counter. -/
def record (s : Stats) (o : Outcome) : Stats :=
  match o with
  | Outcome.Match =>
    { s with total_sent := s.total_sent + 1 }
  | Outcome.NoResponse =>
    { s with total_sent := s.total_sent + 1,
             total_errors := s.total_errors + 1,
             err_no_resp := s.err_no_resp + 1 }
  | Outcome.Mismatch =>
    { s with total_sent := s.total_sent + 1,
             total_errors := s.total_errors + 1,
             err_mismatch := s.err_mismatch + 1 }

/-- Run a sequence of trials: for each received byte string in `rxs`,
classify it against the fixed payload `tx` and update the statistics. -/
def runTrials (s : Stats) (tx : List Nat) (rxs : List (List Nat)) : Stats :=
  rxs.foldl (fun st rx => record st (classify tx rx)) s

/-- Python's true division embedded on rationals: raises
`ZeroDivisionError` (here `none`) when the divisor is zero. -/
def pyDiv (a b : ℚ) : Option ℚ :=
  if b = 0 then none else some (a / b)

/-- The percentage block of `serial_test_V2.py` (lines 93-99): guarded by
`total > 0`, each percentage is `count / total * 100`, else all three are
`0.0`.  Divisions are `pyDiv`, so a division by zero would surface as
`none`. -/
def percentages (s : Stats) : Option (ℚ × ℚ × ℚ) :=
  if 0 < s.total_sent then
    match pyDiv (s.total_errors : ℚ) (s.total_sent : ℚ),
          pyDiv (s.err_no_resp : ℚ) (s.total_sent : ℚ),
          pyDiv (s.err_mismatch : ℚ) (s.total_sent : ℚ) with
    | some pe, some pn, some pm => some (pe * 100, pn * 100, pm * 100)
    | _, _, _ => none
  else
    some (0, 0, 0)

/-- The derived percentage view as the spec words it: each value is
`count / total_sent * 100.0` when `total_sent > 0`, else `0.0`. -/
def percentagesSpec (s : Stats) : ℚ × ℚ × ℚ :=
  if 0 < s.total_sent then
    ((s.total_errors : ℚ) / (s.total_sent : ℚ) * 100,
     (s.err_no_resp : ℚ) / (s.total_sent : ℚ) * 100,
     (s.err_mismatch : ℚ) / (s.total_sent : ℚ) * 100)
  else
    (0, 0, 0)

/-- The unguarded error-percentage computation of `serial_test_V3` (line
117): `(total_errors / total_sent) * 100` with no `total > 0` guard. -/
def v3StatusPct (s : Stats) : Option ℚ :=
  (pyDiv (s.total_errors : ℚ) (s.total_sent : ℚ)).map (fun q => q * 100)

/-- The payload hex constant shared by both scripts (V3 spelling; V2 uses
lowercase `f6`, which parses identically). -/
def hexData : List Nat :=
  strCodes "5A 00 00 00 00 00 F6 96 00 00"

/-- The ten payload bytes `5A 00 00 00 00 00 F6 96 00 00`. -/
def targetPayload : List Nat :=
  [0x5A, 0, 0, 0, 0, 0, 0xF6, 0x96, 0, 0]

/-- The received bytes of the spec scenario's fifth trial:
`5A 01 00 00 00 00 F6 96 00 00`. -/
def mismatchRx : List Nat :=
  [0x5A, 0x01, 0, 0, 0, 0, 0xF6, 0x96, 0, 0]

/-- The five received byte strings of the spec scenario: the exact payload
for trials 1-3, nothing for trial 4, a one-byte-flipped payload for
trial 5. -/
def scenarioRxs : List (List Nat) :=
  [targetPayload, targetPayload, targetPayload, [], mismatchRx]

/-- The statistics invariant of the spec:
`total_errors == no_response_count + mismatch_count <= total_sent`. -/
def statsWF (s : Stats) : Prop :=
  s.total_errors = s.err_no_resp + s.err_mismatch ∧ s.total_errors ≤ s.total_sent

theorem record_total_sent (s : Stats) (o : Outcome) :
    (record s o).total_sent = s.total_sent + 1 := by
  cases o <;> rfl

theorem record_wf {s : Stats} (h : statsWF s) (o : Outcome) :
    statsWF (record s o) := by
  obtain ⟨h1, h2⟩ := h
  cases o <;> simp only [record, statsWF] <;> omega

theorem runTrials_wf_aux (tx : List Nat) (rxs : List (List Nat)) :
    ∀ s : Stats, statsWF s →
      statsWF (runTrials s tx rxs) ∧
      (runTrials s tx rxs).total_sent = s.total_sent + rxs.length := by
  induction rxs with
  | nil => intro s h; simpa [runTrials] using h
  | cons rx rest ih =>
    intro s h
    have hstep := ih (record s (classify tx rx)) (record_wf h _)
    have hts := record_total_sent s (classify tx rx)
    simp only [runTrials, List.foldl_cons] at hstep ⊢
    refine ⟨hstep.1, ?_⟩
    rw [hstep.2, hts, List.length_cons]
    omega

/-- C1: the outcome of a trial is classified by checks in a fixed order:
empty `rx` gives NoResponse; otherwise `rx ≠ tx` gives Mismatch; otherwise
Match — and a Match trial increments no error counter. -/
theorem classify_fixed_order (tx rx : List Nat) (s : Stats) :
    (classify tx rx = Outcome.NoResponse ↔ rx = []) ∧
    (classify tx rx = Outcome.Mismatch ↔ rx ≠ [] ∧ rx ≠ tx) ∧
    (classify tx rx = Outcome.Match ↔ rx ≠ [] ∧ rx = tx) ∧
    record s Outcome.Match = { s with total_sent := s.total_sent + 1 } := by
  unfold classify
  by_cases h1 : rx = [] <;> by_cases h2 : rx = tx <;> simp_all [record]

theorem classify_fixed_order_witness :
    classify targetPayload [] = Outcome.NoResponse ∧
    classify targetPayload targetPayload = Outcome.Match ∧
    classify targetPayload mismatchRx = Outcome.Mismatch :=
  ⟨(classify_fixed_order targetPayload [] zeroStats).1.mpr rfl,
   (classify_fixed_order targetPayload targetPayload zeroStats).2.2.1.mpr
     ⟨by decide, rfl⟩,
   (classify_fixed_order targetPayload mismatchRx zeroStats).2.1.mpr
     ⟨by decide, by decide⟩⟩

/-- C2: starting from the all-zero statistics, after every prefix of the
trial sequence (hence after every intermediate trial and after all N)
`total_sent` equals the number of trials processed and
`total_errors = err_no_resp + err_mismatch ≤ total_sent`. -/
theorem runTrials_invariant (tx : List Nat) (rxs : List (List Nat)) :
    ((runTrials zeroStats tx rxs).total_sent = rxs.length ∧
      statsWF (runTrials zeroStats tx rxs)) ∧
    ∀ n : Nat,
      (runTrials zeroStats tx (rxs.take n)).total_sent = (rxs.take n).length ∧
      statsWF (runTrials zeroStats tx (rxs.take n)) := by
  have hz : statsWF zeroStats := by constructor <;> rfl
  constructor
  · have h := runTrials_wf_aux tx rxs zeroStats hz
    exact ⟨by simpa [zeroStats] using h.2, h.1⟩
  · intro n
    have h := runTrials_wf_aux tx (rxs.take n) zeroStats hz
    exact ⟨by simpa [zeroStats] using h.2, h.1⟩

theorem runTrials_invariant_witness :
    (runTrials zeroStats targetPayload scenarioRxs).total_sent = 5 ∧
    statsWF (runTrials zeroStats targetPayload scenarioRxs) := by
  have h := (runTrials_invariant targetPayload scenarioRxs).1
  exact ⟨h.1.trans (by decide), h.2⟩

/-- C3: one record step always increments `total_sent` by one; a
NoResponse (resp. Mismatch) outcome additionally increments
`total_errors` and `err_no_resp` (resp. `err_mismatch`) and nothing else;
a Match outcome changes nothing but `total_sent`; no counter ever
decreases. -/
theorem record_step_effect (s : Stats) (o : Outcome) :
    (record s o).total_sent = s.total_sent + 1 ∧
    (o = Outcome.NoResponse →
      record s o = { s with total_sent := s.total_sent + 1,
                            total_errors := s.total_errors + 1,
                            err_no_resp := s.err_no_resp + 1 }) ∧
    (o = Outcome.Mismatch →
      record s o = { s with total_sent := s.total_sent + 1,
                            total_errors := s.total_errors + 1,
                            err_mismatch := s.err_mismatch + 1 }) ∧
    (o = Outcome.Match →
      record s o = { s with total_sent := s.total_sent + 1 }) ∧
    s.total_sent ≤ (record s o).total_sent ∧
    s.total_errors ≤ (record s o).total_errors ∧
    s.err_no_resp ≤ (record s o).err_no_resp ∧
    s.err_mismatch ≤ (record s o).err_mismatch := by
  cases o <;> simp [record]

theorem record_step_effect_witness :
    record zeroStats Outcome.NoResponse =
      { zeroStats with total_sent := zeroStats.total_sent + 1,
                       total_errors := zeroStats.total_errors + 1,
                       err_no_resp := zeroStats.err_no_resp + 1 } :=
  (record_step_effect zeroStats Outcome.NoResponse).2.1 rfl

/-- C4: the guarded percentage computation of V2 never divides by zero
and returns exactly the spec's view: `count / total_sent * 100` for each
of the three counters when `total_sent > 0`, and `0.0` for all three when
`total_sent = 0`. -/
theorem percentages_total_eq_spec (s : Stats) :
    percentages s = some (percentagesSpec s) := by
  unfold percentages percentagesSpec pyDiv
  by_cases h : 0 < s.total_sent
  · have hne : (s.total_sent : ℚ) ≠ 0 := by
      exact_mod_cast Nat.pos_iff_ne_zero.mp h
    simp [h, hne]
  · simp [h]

theorem percentages_total_eq_spec_witness :
    percentages zeroStats = some (0, 0, 0) ∧
    percentages ⟨5, 2, 1, 1⟩ = some (40, 20, 20) :=
  ⟨(percentages_total_eq_spec zeroStats).trans (by norm_num [percentagesSpec, zeroStats]),
   (percentages_total_eq_spec ⟨5, 2, 1, 1⟩).trans (by norm_num [percentagesSpec])⟩

/-- C5: on the spec scenario (payload echoed for trials 1-3, empty for
trial 4, one byte flipped for trial 5) the final statistics are
`total_sent = 5`, `total_errors = 2`, `err_no_resp = 1`,
`err_mismatch = 1` and the error percentage is exactly 40. -/
theorem scenario_five_trials :
    fromhex hexData = some targetPayload ∧
    runTrials zeroStats targetPayload scenarioRxs = ⟨5, 2, 1, 1⟩ ∧
    percentages (runTrials zeroStats targetPayload scenarioRxs) =
      some (40, 20, 20) := by
  refine ⟨by decide, by decide, ?_⟩
  have h : runTrials zeroStats targetPayload scenarioRxs = ⟨5, 2, 1, 1⟩ := by decide
  rw [h]
  norm_num [percentages, pyDiv]

/-- C10: in V3, `total_sent` has already been incremented when the status
line is computed, so the unguarded division `total_errors / total_sent`
never divides by zero in any reachable iteration: for every history of
trials from the zero statistics followed by one more recorded trial, the
status percentage is defined. -/
theorem v3_status_no_div_by_zero (tx rx : List Nat) (rxs : List (List Nat)) :
    v3StatusPct (record (runTrials zeroStats tx rxs) (classify tx rx)) =
      some (((record (runTrials zeroStats tx rxs) (classify tx rx)).total_errors : ℚ) /
            ((record (runTrials zeroStats tx rxs) (classify tx rx)).total_sent : ℚ) * 100) := by
  have h1 := record_total_sent (runTrials zeroStats tx rxs) (classify tx rx)
  unfold v3StatusPct pyDiv
  have hpos : (record (runTrials zeroStats tx rxs) (classify tx rx)).total_sent ≠ 0 := by
    rw [h1]
    omega
  have hne : ((record (runTrials zeroStats tx rxs) (classify tx rx)).total_sent : ℚ) ≠ 0 :=
    Nat.cast_ne_zero.mpr hpos
  simp [hne]

theorem v3_status_no_div_by_zero_witness :
    v3StatusPct (record (runTrials zeroStats targetPayload []) (classify targetPayload [])) =
      some 100 := by
  have h := v3_status_no_div_by_zero targetPayload [] []
  rw [h]
  norm_num [runTrials, record, classify, zeroStats]

theorem hexVal_lt_16 (c : Nat) : hexVal c < 16 := by
  unfold hexVal
  split_ifs <;> omega

theorem hexDigit_not_ws {c : Nat} (h : isHexDigit c = true) : isWs c = false := by
  simp only [isHexDigit, Bool.or_eq_true, Bool.and_eq_true, decide_eq_true_eq] at h
  simp only [isWs, Bool.or_eq_false_iff, decide_eq_false_iff_not]
  omega

theorem hexDigitUpper_hexVal {c : Nat} (h : isHexDigit c = true) :
    hexDigitUpper (hexVal c) = upperChar c := by
  simp only [isHexDigit, Bool.or_eq_true, Bool.and_eq_true, decide_eq_true_eq] at h
  unfold hexDigitUpper hexVal upperChar
  split_ifs <;> omega

theorem hexDigitUpper_inj {v1 v2 : Nat} (h : hexDigitUpper v1 = hexDigitUpper v2) :
    v1 = v2 := by
  unfold hexDigitUpper at h
  split_ifs at h <;> omega

theorem bytesHexUpper_inj : ∀ bs1 bs2 : List Nat,
    bytesHexUpper bs1 = bytesHexUpper bs2 → bs1 = bs2 := by
  intro bs1
  induction bs1 with
  | nil =>
    intro bs2 h
    cases bs2 with
    | nil => rfl
    | cons b t => simp [bytesHexUpper] at h
  | cons b1 t1 ih =>
    intro bs2 h
    cases bs2 with
    | nil => simp [bytesHexUpper] at h
    | cons b2 t2 =>
      simp only [bytesHexUpper, List.foldr_cons, List.cons.injEq] at h
      obtain ⟨h1, h2, h3⟩ := h
      have hb : b1 = b2 := by
        have e1 := hexDigitUpper_inj h1
        have e2 := hexDigitUpper_inj h2
        omega
      rw [hb, ih t2 h3]

theorem fromhex_norm_aux :
    ∀ s bs, fromhex s = some bs →
      bytesHexUpper bs = (s.filter (fun c => !isWs c)).map upperChar := by
  intro s
  induction s using fromhex.induct with
  | case1 =>
    intro bs h
    simp [fromhex] at h
    subst h
    rfl
  | case2 c hw =>
    intro bs h
    simp [fromhex, hw] at h
    subst h
    simp [hw, bytesHexUpper]
  | case3 c hw =>
    intro bs h
    simp [fromhex, hw] at h
  | case4 c d rest hw ih =>
    intro bs h
    rw [show fromhex (c :: d :: rest) = fromhex (d :: rest) by simp [fromhex, hw]] at h
    have hrec := ih bs h
    simp [List.filter, hw, hrec]
  | case5 c d rest hw hx ih =>
    intro bs h
    have hx2 := hx
    simp only [Bool.and_eq_true] at hx2
    obtain ⟨hc, hd⟩ := hx2
    rw [show fromhex (c :: d :: rest) =
        (fromhex rest).map (fun bs => (hexVal c * 16 + hexVal d) :: bs) by
      simp [fromhex, hw, hx]] at h
    rw [Option.map_eq_some'] at h
    obtain ⟨bs0, hbs0, hcons⟩ := h
    subst hcons
    have hrec := ih bs0 hbs0
    have hdiv : (hexVal c * 16 + hexVal d) / 16 = hexVal c := by
      have := hexVal_lt_16 d
      omega
    have hmod : (hexVal c * 16 + hexVal d) % 16 = hexVal d := by
      have := hexVal_lt_16 d
      omega
    simp only [bytesHexUpper, List.foldr_cons] at hrec ⊢
    rw [hdiv, hmod, hexDigitUpper_hexVal hc, hexDigitUpper_hexVal hd, hrec]
    simp [List.filter, hexDigit_not_ws hc, hexDigit_not_ws hd, hw]
  | case6 c d rest hw hx =>
    intro bs h
    simp [fromhex, hw, hx] at h

/-- The shape of strings accepted by `fromhex`: interleaved ASCII
whitespace and adjacent two-hex-digit byte groups. -/
inductive HexShape : List Nat → Prop where
  | nil : HexShape []
  | ws {c : Nat} {rest : List Nat} :
      isWs c = true → HexShape rest → HexShape (c :: rest)
  | pair {c d : Nat} {rest : List Nat} :
      isHexDigit c = true → isHexDigit d = true →
      HexShape rest → HexShape (c :: d :: rest)

/-- Startup actions of the scripts, in program order. -/
inductive StartupStep where
  | initCsvFile
  | openPort
  | parsePayload
  | trialLoop
deriving DecidableEq, BEq

/-- Startup order of `serial_test_V2.py`: the port is opened (line 37)
before the payload is parsed (line 43); the trial loop starts at line
53. -/
def v2Startup : List StartupStep :=
  [StartupStep.openPort, StartupStep.parsePayload, StartupStep.trialLoop]

/-- Startup order of `serial_test_V3_with_log_without_reconfigure.py`:
CSV bootstrap (line 53), payload parse (line 54), port open (line 68),
trial loop (line 70). -/
def v3Startup : List StartupStep :=
  [StartupStep.initCsvFile, StartupStep.parsePayload, StartupStep.openPort,
   StartupStep.trialLoop]

/-- C6 (amended): for every input accepted by `hex_to_bytes`, rendering
the parsed bytes back with `.hex().upper()` yields exactly the uppercased,
whitespace-free form of the input; hence two accepted inputs with the same
uppercased, whitespace-free digit content parse to the same payload.  A
correct instance of the spec's example pair is
`"5a 00 00 00 00 00 f6 96 00 00"` and `"5A000000 00 00F6 9600 00"`. -/
theorem fromhex_to_hex_normalizes :
    (∀ s bs, fromhex s = some bs →
      bytesHexUpper bs = (s.filter (fun c => !isWs c)).map upperChar) ∧
    (∀ s1 s2 bs1 bs2, fromhex s1 = some bs1 → fromhex s2 = some bs2 →
      (s1.filter (fun c => !isWs c)).map upperChar =
        (s2.filter (fun c => !isWs c)).map upperChar →
      bs1 = bs2) ∧
    fromhex (strCodes "5a 00 00 00 00 00 f6 96 00 00") = some targetPayload ∧
    fromhex (strCodes "5A000000 00 00F6 9600 00") = some targetPayload := by
  refine ⟨fromhex_norm_aux, ?_, by decide, by decide⟩
  intro s1 s2 bs1 bs2 h1 h2 heq
  apply bytesHexUpper_inj
  rw [fromhex_norm_aux s1 bs1 h1, fromhex_norm_aux s2 bs2 h2, heq]

theorem fromhex_to_hex_normalizes_witness :
    bytesHexUpper targetPayload =
      ((strCodes "5a 00 00 00 00 00 f6 96 00 00").filter
        (fun c => !isWs c)).map upperChar :=
  fromhex_to_hex_normalizes.1 (strCodes "5a 00 00 00 00 00 f6 96 00 00")
    targetPayload (by decide)

/-- C6 counterexample: the spec's example pair does not parse to the same
payload — the second string carries only 18 hex digits (9 bytes), not
20 (10 bytes). -/
theorem fromhex_spec_example_pair_differs :
    fromhex (strCodes "5a 00 00 00 00 00 f6 96 00 00") = some targetPayload ∧
    fromhex (strCodes "5A000000 00F6 9600 00") =
      some [0x5A, 0x00, 0x00, 0x00, 0x00, 0xF6, 0x96, 0x00, 0x00] ∧
    fromhex (strCodes "5A000000 00F6 9600 00") ≠
      fromhex (strCodes "5a 00 00 00 00 00 f6 96 00 00") := by
  exact ⟨by decide, by decide, by decide⟩

/-- C7 (amended): `hex_to_bytes` succeeds exactly on strings that are
interleaved whitespace and adjacent two-hex-digit byte groups — so it
fails on an odd digit group, on a non-hex non-whitespace character, and
also when whitespace splits the two digits of a byte; in both scripts the
payload parse precedes entry into the trial loop, and in V3 it also
precedes opening the transport, but in V2 the serial port is opened
before the payload is parsed, so a format failure there happens with the
transport already open. -/
theorem fromhex_success_characterization :
    (∀ s, (∃ bs, fromhex s = some bs) ↔ HexShape s) ∧
    List.indexOf StartupStep.parsePayload v2Startup <
      List.indexOf StartupStep.trialLoop v2Startup ∧
    List.indexOf StartupStep.parsePayload v3Startup <
      List.indexOf StartupStep.trialLoop v3Startup ∧
    List.indexOf StartupStep.parsePayload v3Startup <
      List.indexOf StartupStep.openPort v3Startup ∧
    List.indexOf StartupStep.openPort v2Startup <
      List.indexOf StartupStep.parsePayload v2Startup := by
  refine ⟨?_, by decide, by decide, by decide, by decide⟩
  intro s
  induction s using fromhex.induct with
  | case1 =>
    simp [fromhex]
    exact HexShape.nil
  | case2 c hw =>
    simp [fromhex, hw]
    exact HexShape.ws hw HexShape.nil
  | case3 c hw =>
    simp [fromhex, hw]
    intro hsh
    cases hsh with
    | ws h2 _ => exact hw h2
  | case4 c d rest hw ih =>
    rw [show fromhex (c :: d :: rest) = fromhex (d :: rest) by simp [fromhex, hw]]
    constructor
    · intro h
      exact HexShape.ws hw (ih.mp h)
    · intro hsh
      cases hsh with
      | ws _ h2 => exact ih.mpr h2
      | pair h2 h3 h4 => simp [hexDigit_not_ws h2] at hw
  | case5 c d rest hw hx ih =>
    have hx2 := hx
    simp only [Bool.and_eq_true] at hx2
    obtain ⟨hc, hd⟩ := hx2
    rw [show fromhex (c :: d :: rest) =
        (fromhex rest).map (fun bs => (hexVal c * 16 + hexVal d) :: bs) by
      simp [fromhex, hw, hx]]
    constructor
    · intro ⟨bs, hbs⟩
      rw [Option.map_eq_some'] at hbs
      obtain ⟨bs0, hbs0, _⟩ := hbs
      exact HexShape.pair hc hd (ih.mp ⟨bs0, hbs0⟩)
    · intro hsh
      cases hsh with
      | ws h2 _ => rw [hexDigit_not_ws hc] at h2; exact absurd h2 (by simp)
      | pair _ _ h4 =>
        obtain ⟨bs0, hbs0⟩ := ih.mpr h4
        exact ⟨_, by rw [hbs0]; rfl⟩
  | case6 c d rest hw hx =>
    simp [fromhex, hw, hx]
    intro hsh
    cases hsh with
    | ws h2 _ => exact hw h2
    | pair h2 h3 _ => exact hx (by simp [h2, h3])

theorem fromhex_success_characterization_witness : HexShape hexData :=
  (fromhex_success_characterization.1 hexData).mp ⟨targetPayload, by decide⟩

/-- C7 counterexample: `"5 A"` has an even number of hex digits and only
hex or separator characters, yet `hex_to_bytes` rejects it, because the
whitespace falls between the two digits of one byte; moreover in V2 the
serial port is opened (line 37) before the payload is parsed (line 43),
so the format failure would not precede use of the transport there. -/
theorem fromhex_even_separated_input_fails :
    ((strCodes "5 A").countP (fun c => isHexDigit c)) % 2 = 0 ∧
    (∀ c ∈ strCodes "5 A", isHexDigit c = true ∨ isWs c = true) ∧
    fromhex (strCodes "5 A") = none ∧
    List.indexOf StartupStep.openPort v2Startup <
      List.indexOf StartupStep.parsePayload v2Startup := by
  exact ⟨by decide, by decide, by decide, by decide⟩

/-- The CSV header row written by `init_csv` (V3 lines 38-44). -/
def headerRow : List (List Nat) :=
  [strCodes "timestamp", strCodes "seq_no", strCodes "tx_hex",
   strCodes "rx_hex", strCodes "error_type"]

/-- `init_csv` of V3: mode `"x"` writes the header to a fresh file and
raises `FileExistsError` (swallowed) when the file already exists, leaving
its content untouched. -/
def init_csv : Option (List (List (List Nat))) → Option (List (List (List Nat)))
  | none => some [headerRow]
  | some rows => some rows

/-- One per-trial CSV append of V3 (lines 105-113): mode `"a"` creates
the file when absent and appends one row at the end. -/
def appendCsv (f : Option (List (List (List Nat)))) (r : List (List Nat)) :
    Option (List (List (List Nat))) :=
  match f with
  | none => some [r]
  | some rows => some (rows ++ [r])

/-- An operation against the CSV log sink. -/
inductive CsvOp where
  | initOp
  | appendOp (r : List (List Nat))

/-- Run a sequence of sink operations against a file state. -/
def runCsv : Option (List (List (List Nat))) → List CsvOp → Option (List (List (List Nat)))
  | f, [] => f
  | f, CsvOp.initOp :: ops => runCsv (init_csv f) ops
  | f, CsvOp.appendOp r :: ops => runCsv (appendCsv f r) ops

/-- The rows appended by a sequence of sink operations, in order. -/
def appendsOf : List CsvOp → List (List (List Nat))
  | [] => []
  | CsvOp.initOp :: ops => appendsOf ops
  | CsvOp.appendOp r :: ops => r :: appendsOf ops

/-- Whether a sink operation is an append. -/
def isAppend : CsvOp → Bool
  | CsvOp.initOp => false
  | CsvOp.appendOp _ => true

theorem runCsv_some (ops : List CsvOp) :
    ∀ rows, runCsv (some rows) ops = some (rows ++ appendsOf ops) := by
  induction ops with
  | nil => intro rows; simp [runCsv, appendsOf]
  | cons op rest ih =>
    intro rows
    cases op with
    | initOp => simp [runCsv, init_csv, appendsOf, ih rows]
    | appendOp r =>
      simp only [runCsv, appendCsv, appendsOf, ih (rows ++ [r])]
      simp

/-- C8: starting from an absent file that is then initialized — as every
run of V3 does — any further mix of (re)initializations and K appends
leaves the file as exactly the header row followed by the K appended data
rows in append order; reinitialization never rewrites or truncates. -/
theorem csv_append_only (ops : List CsvOp) :
    runCsv (init_csv none) ops = some (headerRow :: appendsOf ops) ∧
    (appendsOf ops).length = ops.countP isAppend := by
  constructor
  · have h := runCsv_some ops [headerRow]
    simpa [init_csv] using h
  · induction ops with
    | nil => simp [appendsOf]
    | cons op rest ih =>
      cases op with
      | initOp => simpa [appendsOf, List.countP_cons, isAppend] using ih
      | appendOp r => simpa [appendsOf, List.countP_cons, isAppend] using ih

/-- Decimal digit rendering helper, structurally recursive on fuel. -/
def natDecAux : Nat → Nat → List Nat
  | 0, _ => []
  | fuel + 1, n => if n = 0 then [] else natDecAux fuel (n / 10) ++ [48 + n % 10]

/-- Decimal rendering of a natural number, as Python `str` shows the
sequence number. -/
def natDec (n : Nat) : List Nat :=
  if n = 0 then [48] else natDecAux (n + 1) n

/-- Python's `:<w` format: left-justify, pad with spaces to width `w`. -/
def padRight (l : List Nat) (w : Nat) : List Nat :=
  l ++ List.replicate (w - l.length) 32

/-- The V2 scrolling error report for one trial (lines 63-90): nothing for
a Match trial; otherwise the one printed line
`"\n  [ts] | #seq | msg | detail"`, where the Mismatch detail carries the
received bytes rendered uppercase. -/
def v2ErrorLine (tx rx ts : List Nat) (seq : Nat) : Option (List Nat) :=
  match classify tx rx with
  | Outcome.Match => none
  | Outcome.NoResponse =>
    some (strCodes "\n  [" ++ ts ++ strCodes "] | #" ++ padRight (natDec seq) 4 ++
      strCodes " | " ++ padRight (strCodes "NO RESPONSE") 15 ++ strCodes " | " ++
      strCodes "Buffer empty")
  | Outcome.Mismatch =>
    some (strCodes "\n  [" ++ ts ++ strCodes "] | #" ++ padRight (natDec seq) 4 ++
      strCodes " | " ++ padRight (strCodes "DATA MISMATCH") 15 ++ strCodes " | " ++
      strCodes "Rx: " ++ bytesHexUpper rx)

/-- The V3 scrolling error report for one trial (lines 98-102): nothing
for a Match trial; otherwise the one printed line
`"\n  [ts] | #seq | error_type"` — with no received-bytes field. -/
def v3ErrorLine (tx rx ts : List Nat) (seq : Nat) : Option (List Nat) :=
  match classify tx rx with
  | Outcome.Match => none
  | Outcome.NoResponse =>
    some (strCodes "\n  [" ++ ts ++ strCodes "] | #" ++ padRight (natDec seq) 4 ++
      strCodes " | " ++ strCodes "NO RESPONSE")
  | Outcome.Mismatch =>
    some (strCodes "\n  [" ++ ts ++ strCodes "] | #" ++ padRight (natDec seq) 4 ++
      strCodes " | " ++ strCodes "DATA MISMATCH")

/-- The CSV row V3 writes each trial (lines 83-113): timestamp, sequence
number, uppercase tx hex, uppercase rx hex (empty when no response), and
the error type (empty for Match). -/
def v3CsvRow (tx rx ts : List Nat) (seq : Nat) : List (List Nat) :=
  [ts, natDec seq, bytesHexUpper tx,
   if rx = [] then [] else bytesHexUpper rx,
   match classify tx rx with
   | Outcome.Match => []
   | Outcome.NoResponse => strCodes "NO RESPONSE"
   | Outcome.Mismatch => strCodes "DATA MISMATCH"]

/-- `needle` occurs as a contiguous segment of `hay`. -/
def containsSeg (hay needle : List Nat) : Prop :=
  ∃ a b, hay = a ++ needle ++ b

theorem containsSeg_iff (hay needle : List Nat) :
    containsSeg hay needle ↔
      ∃ i < hay.length + 1, (hay.drop i).take needle.length = needle := by
  constructor
  · rintro ⟨a, b, rfl⟩
    refine ⟨a.length, by simp; omega, ?_⟩
    simp
  · rintro ⟨i, _, htake⟩
    refine ⟨hay.take i, (hay.drop i).drop needle.length, ?_⟩
    conv_lhs =>
      rw [← List.take_append_drop i hay,
        ← List.take_append_drop needle.length (hay.drop i)]
    rw [htake, List.append_assoc]

theorem containsSeg_self (l : List Nat) : containsSeg l l :=
  ⟨[], [], by simp⟩

theorem containsSeg_append_left (a : List Nat) {hay needle : List Nat}
    (h : containsSeg hay needle) : containsSeg (a ++ hay) needle := by
  obtain ⟨x, y, rfl⟩ := h
  exact ⟨a ++ x, y, by simp⟩

theorem containsSeg_append_right (b : List Nat) {hay needle : List Nat}
    (h : containsSeg hay needle) : containsSeg (hay ++ b) needle := by
  obtain ⟨x, y, rfl⟩ := h
  exact ⟨x, y ++ b, by simp⟩

/-- C9 (amended): for every non-Match trial exactly one error line is
emitted (none for Match), containing the timestamp, the sequence number
and the outcome kind; the V2 Mismatch line additionally contains the
received bytes rendered as uppercase hexadecimal, while in V3 the
uppercase received hex goes to the CSV row, not to the error line. -/
theorem error_lines_report (tx rx ts : List Nat) (seq : Nat) :
    (classify tx rx = Outcome.Match ↔ v2ErrorLine tx rx ts seq = none) ∧
    (classify tx rx = Outcome.Match ↔ v3ErrorLine tx rx ts seq = none) ∧
    (∀ l, v2ErrorLine tx rx ts seq = some l →
      containsSeg l ts ∧ containsSeg l (natDec seq) ∧
      (classify tx rx = Outcome.NoResponse → containsSeg l (strCodes "NO RESPONSE")) ∧
      (classify tx rx = Outcome.Mismatch →
        containsSeg l (strCodes "DATA MISMATCH") ∧ containsSeg l (bytesHexUpper rx))) ∧
    (∀ l, v3ErrorLine tx rx ts seq = some l →
      containsSeg l ts ∧ containsSeg l (natDec seq) ∧
      (classify tx rx = Outcome.NoResponse → containsSeg l (strCodes "NO RESPONSE")) ∧
      (classify tx rx = Outcome.Mismatch → containsSeg l (strCodes "DATA MISMATCH"))) ∧
    (classify tx rx = Outcome.Mismatch → bytesHexUpper rx ∈ v3CsvRow tx rx ts seq) := by
  have hrxne : classify tx rx = Outcome.Mismatch → rx ≠ [] := by
    intro hc he
    simp [classify, he] at hc
  cases hc : classify tx rx with
  | Match =>
    refine ⟨by simp [v2ErrorLine, hc], by simp [v3ErrorLine, hc], ?_, ?_, by simp [hc]⟩ <;>
      · intro l hl
        simp [v2ErrorLine, v3ErrorLine, hc] at hl
  | NoResponse =>
    refine ⟨by simp [v2ErrorLine, hc], by simp [v3ErrorLine, hc], ?_, ?_, by simp [hc]⟩
    · intro l hl
      simp only [v2ErrorLine, hc, Option.some.injEq] at hl
      subst hl
      refine ⟨?_, ?_, fun _ => ?_, fun h => by simp at h⟩
      · repeat
          first
          | exact containsSeg_append_left _ (containsSeg_self _)
          | exact containsSeg_append_left _ (containsSeg_append_right _ (containsSeg_self _))
          | apply containsSeg_append_right
      · repeat
          first
          | exact containsSeg_append_left _ (containsSeg_self _)
          | exact containsSeg_append_left _ (containsSeg_append_right _ (containsSeg_self _))
          | apply containsSeg_append_right
      · repeat
          first
          | exact containsSeg_append_left _ (containsSeg_self _)
          | exact containsSeg_append_left _ (containsSeg_append_right _ (containsSeg_self _))
          | apply containsSeg_append_right
    · intro l hl
      simp only [v3ErrorLine, hc, Option.some.injEq] at hl
      subst hl
      refine ⟨?_, ?_, fun _ => ?_, fun h => by simp at h⟩
      · repeat
          first
          | exact containsSeg_append_left _ (containsSeg_self _)
          | exact containsSeg_append_left _ (containsSeg_append_right _ (containsSeg_self _))
          | apply containsSeg_append_right
      · repeat
          first
          | exact containsSeg_append_left _ (containsSeg_self _)
          | exact containsSeg_append_left _ (containsSeg_append_right _ (containsSeg_self _))
          | apply containsSeg_append_right
      · repeat
          first
          | exact containsSeg_append_left _ (containsSeg_self _)
          | exact containsSeg_append_left _ (containsSeg_append_right _ (containsSeg_self _))
          | apply containsSeg_append_right
  | Mismatch =>
    refine ⟨by simp [v2ErrorLine, hc], by simp [v3ErrorLine, hc], ?_, ?_, ?_⟩
    · intro l hl
      simp only [v2ErrorLine, hc, Option.some.injEq] at hl
      subst hl
      refine ⟨?_, ?_, fun h => by simp at h, fun _ => ⟨?_, ?_⟩⟩
      · repeat
          first
          | exact containsSeg_append_left _ (containsSeg_self _)
          | exact containsSeg_append_left _ (containsSeg_append_right _ (containsSeg_self _))
          | apply containsSeg_append_right
      · repeat
          first
          | exact containsSeg_append_left _ (containsSeg_self _)
          | exact containsSeg_append_left _ (containsSeg_append_right _ (containsSeg_self _))
          | apply containsSeg_append_right
      · repeat
          first
          | exact containsSeg_append_left _ (containsSeg_self _)
          | exact containsSeg_append_left _ (containsSeg_append_right _ (containsSeg_self _))
          | apply containsSeg_append_right
      · repeat
          first
          | exact containsSeg_append_left _ (containsSeg_self _)
          | exact containsSeg_append_left _ (containsSeg_append_right _ (containsSeg_self _))
          | apply containsSeg_append_right
    · intro l hl
      simp only [v3ErrorLine, hc, Option.some.injEq] at hl
      subst hl
      refine ⟨?_, ?_, fun h => by simp at h, fun _ => ?_⟩
      · repeat
          first
          | exact containsSeg_append_left _ (containsSeg_self _)
          | exact containsSeg_append_left _ (containsSeg_append_right _ (containsSeg_self _))
          | apply containsSeg_append_right
      · repeat
          first
          | exact containsSeg_append_left _ (containsSeg_self _)
          | exact containsSeg_append_left _ (containsSeg_append_right _ (containsSeg_self _))
          | apply containsSeg_append_right
      · repeat
          first
          | exact containsSeg_append_left _ (containsSeg_self _)
          | exact containsSeg_append_left _ (containsSeg_append_right _ (containsSeg_self _))
          | apply containsSeg_append_right
    · intro _
      simp [v3CsvRow, hrxne hc, hc]

theorem error_lines_report_witness :
    containsSeg ((v2ErrorLine targetPayload mismatchRx (strCodes "12:00:00.000") 5).getD [])
      (bytesHexUpper mismatchRx) :=
  (((error_lines_report targetPayload mismatchRx (strCodes "12:00:00.000") 5).2.2.1
      ((v2ErrorLine targetPayload mismatchRx (strCodes "12:00:00.000") 5).getD [])
      (by decide)).2.2.2 (by decide)).2

/-- C9 counterexample: at a concrete Mismatch trial the V3 error line does
not contain the received bytes rendered as uppercase hexadecimal. -/
theorem v3_mismatch_line_lacks_rx_hex :
    classify targetPayload mismatchRx = Outcome.Mismatch ∧
    v3ErrorLine targetPayload mismatchRx (strCodes "12:00:00.000") 5 ≠ none ∧
    ¬ containsSeg ((v3ErrorLine targetPayload mismatchRx (strCodes "12:00:00.000") 5).getD [])
      (bytesHexUpper mismatchRx) := by
  refine ⟨by decide, by decide, ?_⟩
  rw [containsSeg_iff]
  decide
